import Mathlib

/-!
# Early-return error propagation of `wfa/measurement/common/macros.h`

The header defines `RETURN_IF_ERROR`, `ASSIGN_OR_RETURN_ERROR`, its helper
`WFA_MEASUREMENT_COMMON__ASSIGN_OR_RETURN_IMPL_` and the two-level token
concatenation `WFA_MEASUREMENT_COMMON_MACROS_IMPL_CONCAT_`.

The embedding has two layers.

* Run time: an expression is a state transformer returning a value, a
  statement maps a state to a `Flow` (the enclosing operation returned, or
  control reaches the following statement).  Each expansion is translated
  statement by statement.
* Expansion time: preprocessing tokens, argument pre-expansion of `__LINE__`
  and the `##` operator, which together give the name of the hidden temporary
  an invocation declares in the enclosing scope.
-/

namespace WfaMacros

/-! ## The external status types -/

/-- Modelled from the spec: the canonical codes of the external status type
(`absl::StatusCode`), which the header uses but does not declare. -/
inductive StatusCode where
  | kOk
  | kCancelled
  | kUnknown
  | kInvalidArgument
  | kDeadlineExceeded
  | kNotFound
  | kAlreadyExists
  | kPermissionDenied
  | kResourceExhausted
  | kFailedPrecondition
  | kAborted
  | kOutOfRange
  | kUnimplemented
  | kInternal
  | kUnavailable
  | kDataLoss
  | kUnauthenticated
  deriving DecidableEq, Repr

/-- Modelled from the spec: the external status value (`absl::Status`), an
error detail made of a code plus a message. -/
structure Status where
  code : StatusCode
  message : String
  deriving DecidableEq, Repr

/-- Modelled from the spec: the success query of the external status type
(`absl::Status::ok`): the code is the OK code. -/
def Status.ok (s : Status) : Bool :=
  decide (s.code = StatusCode.kOk)

/-- Modelled from the spec: the external constructor of a failure from a
message (`absl::InvalidArgumentError`): code INVALID_ARGUMENT, detail the
message. -/
def InvalidArgumentError (message : String) : Status :=
  { code := StatusCode.kInvalidArgument, message := message }

/-- Modelled from the spec: the external fallible result (`absl::StatusOr`),
a tagged union of a success payload and a failure; the failure variant never
holds an OK status. -/
inductive StatusOr (V : Type) where
  | value (v : V)
  | error (s : Status) (h : s.ok = false)

/-- Modelled from the spec: the success query of the fallible result
(`absl::StatusOr::ok`). -/
def StatusOr.ok {V : Type} : StatusOr V → Bool
  | StatusOr.value _ => true
  | StatusOr.error _ _ => false

/-- Modelled from the spec: payload extraction (`absl::StatusOr::value`),
defined where the result is a success. -/
def StatusOr.get {V : Type} : (r : StatusOr V) → r.ok = true → V
  | StatusOr.value v, _ => v
  | StatusOr.error _ _, h => absurd h (by simp [StatusOr.ok])

/-- The branch hint `ABSL_PREDICT_FALSE` leaves the value of its argument
unchanged. -/
def ABSL_PREDICT_FALSE (b : Bool) : Bool := b

/-! ## Run-time layer -/

/-- An expression over program state `σ`: evaluating it yields a value and the
state after its side effects. -/
abbrev Expr (σ α : Type) : Type := σ → α × σ

/-- The outcome of a statement inside an enclosing operation. -/
inductive Flow (σ : Type) where
  /-- The enclosing operation executed `return result`. -/
  | returned (result : Status) (s : σ)
  /-- Control reaches the statement that follows. -/
  | continues (s : σ)
  deriving DecidableEq, Repr

/-- The program state in which a statement ends. -/
def Flow.state {σ : Type} : Flow σ → σ
  | Flow.returned _ s => s
  | Flow.continues s => s

/-- Whether the statement made the enclosing operation return. -/
def Flow.isReturned {σ : Type} : Flow σ → Bool
  | Flow.returned _ _ => true
  | Flow.continues _ => false

/-- An assignable location of type `V` inside state `σ`. -/
structure Location (σ V : Type) where
  get : σ → V
  set : V → σ → σ

/-! ## Expansion-time layer -/

/-- A preprocessing token, of the two kinds the header pastes together. -/
inductive PPToken where
  | identifier (spelling : String)
  | ppNumber (spelling : String)
  deriving DecidableEq, Repr

/-- The characters of a token. -/
def PPToken.spelling : PPToken → String
  | PPToken.identifier s => s
  | PPToken.ppNumber s => s

/-- The digits of the decimal constant `__LINE__` expands to, most significant
first.  The fuel bounds the number of digits. -/
def decimalCore : Nat → Nat → List Char → List Char
  | 0, _, ds => ds
  | fuel + 1, n, ds =>
    if n / 10 = 0 then Nat.digitChar (n % 10) :: ds
    else decimalCore fuel (n / 10) (Nat.digitChar (n % 10) :: ds)

/-- The decimal spelling of a line number. -/
def decimal (n : Nat) : String :=
  String.mk (decimalCore (n + 1) n [])

/-- Full expansion of one argument token at presumed line `LINE`: the
predefined name `__LINE__` is replaced by the decimal line number, any other
token of the header's invocations names nothing to expand. -/
def expandArg (LINE : Nat) : PPToken → PPToken
  | PPToken.identifier s =>
    if s = "__LINE__" then PPToken.ppNumber (decimal LINE) else PPToken.identifier s
  | PPToken.ppNumber s => PPToken.ppNumber s

/-- The `##` operator: the spellings are joined and the result is a token of
the kind of the left operand (an identifier followed by identifier characters
or digits is an identifier). -/
def paste (x y : PPToken) : PPToken :=
  match x with
  | PPToken.identifier s => PPToken.identifier (s ++ y.spelling)
  | PPToken.ppNumber s => PPToken.ppNumber (s ++ y.spelling)

/-- The body `x##y`: parameters that are operands of `##` are substituted
without being expanded. -/
def WFA_MEASUREMENT_COMMON_MACROS_IMPL_CONCAT_INNER_ (x y : PPToken) : PPToken :=
  paste x y

/-- The body `WFA_MEASUREMENT_COMMON_MACROS_IMPL_CONCAT_INNER_(x, y)`: here the
parameters are not operands of `##`, so the arguments are fully expanded
before they are passed on. -/
def WFA_MEASUREMENT_COMMON_MACROS_IMPL_CONCAT_ (LINE : Nat) (x y : PPToken) : PPToken :=
  WFA_MEASUREMENT_COMMON_MACROS_IMPL_CONCAT_INNER_ (expandArg LINE x) (expandArg LINE y)

/-! ## The statements the header expands to -/

/-- A statement list produced by one invocation: the names it declares in the
enclosing scope, and its execution. -/
structure Statement (σ : Type) where
  declares : List PPToken
  exec : σ → Flow σ

/-- Expansion `do { absl::Status _status = (status); if (!_status.ok()) return
_status; } while (0)`.  The temporary lives in the scope of the loop body, so
nothing is declared in the enclosing scope; the body runs once because the
loop condition is the constant 0. -/
def RETURN_IF_ERROR {σ : Type} (status : Expr σ Status) : Statement σ where
  declares := []
  exec := fun s =>
    let r := status s
    let _status := r.1
    if !_status.ok then Flow.returned _status r.2 else Flow.continues r.2

/-- Expansion `auto statusor = (rexpr); if (ABSL_PREDICT_FALSE(!statusor.ok()))
{ return absl::InvalidArgumentError(message); } lhs =
std::move(statusor).value()`.  The three statements sit directly in the
enclosing scope, which therefore receives the declaration of `statusor`. -/
def WFA_MEASUREMENT_COMMON__ASSIGN_OR_RETURN_IMPL_ {σ V : Type} (statusor : PPToken)
    (lhs : Location σ V) (rexpr : Expr σ (StatusOr V)) (message : Expr σ String) :
    Statement σ where
  declares := [statusor]
  exec := fun s =>
    let r := rexpr s
    if h : ABSL_PREDICT_FALSE (!r.1.ok) = true then
      let m := message r.2
      Flow.returned (InvalidArgumentError m.1) m.2
    else
      Flow.continues (lhs.set (r.1.get (by simpa [ABSL_PREDICT_FALSE] using h)) r.2)

/-- Expansion of `ASSIGN_OR_RETURN_ERROR(lhs, rexpr, message)` at presumed line
`LINE`: the helper is invoked with the name
`WFA_MEASUREMENT_COMMON_MACROS_IMPL_CONCAT_(status_or_value, __LINE__)`. -/
def ASSIGN_OR_RETURN_ERROR {σ V : Type} (LINE : Nat) (lhs : Location σ V)
    (rexpr : Expr σ (StatusOr V)) (message : Expr σ String) : Statement σ :=
  WFA_MEASUREMENT_COMMON__ASSIGN_OR_RETURN_IMPL_
    (WFA_MEASUREMENT_COMMON_MACROS_IMPL_CONCAT_ LINE
      (PPToken.identifier "status_or_value") (PPToken.identifier "__LINE__"))
    lhs rexpr message

/-! ## Enclosing operations -/

/-- Sequential execution of the statements of one scope: a return ends it. -/
def runBlock {σ : Type} : List (Statement σ) → σ → Flow σ
  | [], s => Flow.continues s
  | st :: rest, s =>
    match st.exec s with
    | Flow.returned r s1 => Flow.returned r s1
    | Flow.continues s1 => runBlock rest s1

/-- An enclosing operation: the statements of its body followed by a closing
`return final;`. -/
def enclosing {σ : Type} (body : List (Statement σ)) (final : Expr σ Status) (s : σ) :
    Status × σ :=
  match runBlock body s with
  | Flow.returned r s1 => (r, s1)
  | Flow.continues s1 => final s1

/-- The names the statements of one scope declare in it, in program order. -/
def declaredNames {σ : Type} (body : List (Statement σ)) : List PPToken :=
  body.flatMap Statement.declares

/-- A scope is well formed when no name is declared in it twice (a second
declaration of a name in the same scope is rejected by the compiler). -/
def wellFormedScope {σ : Type} (body : List (Statement σ)) : Bool :=
  decide (declaredNames body).Nodup

/-- A place in the source text where the header's constructs are invoked. -/
structure CallSite where
  line : Nat
  column : Nat
  deriving DecidableEq, Repr

/-- The name of the hidden temporary declared by the invocation of
`ASSIGN_OR_RETURN_ERROR` at a call site: the first argument the expansion
hands to the helper. -/
def hiddenTemporary (c : CallSite) : PPToken :=
  WFA_MEASUREMENT_COMMON_MACROS_IMPL_CONCAT_ c.line
    (PPToken.identifier "status_or_value") (PPToken.identifier "__LINE__")

/-! ## Observing evaluations -/

/-- Program state extended with counters of the observable events of one
invocation: evaluations of the fallible argument, evaluations of the message
argument and writes to the destination. -/
structure Probe (σ : Type) where
  st : σ
  argEvals : Nat
  messageEvals : Nat
  lhsWrites : Nat
  deriving DecidableEq, Repr

/-- The fallible argument `E`, with each evaluation counted. -/
def countArg {σ α : Type} (E : Expr σ α) : Expr (Probe σ) α := fun p =>
  ((E p.st).1, { p with st := (E p.st).2, argEvals := p.argEvals + 1 })

/-- The message argument `M`, with each evaluation counted. -/
def countMessage {σ : Type} (M : Expr σ String) : Expr (Probe σ) String := fun p =>
  ((M p.st).1, { p with st := (M p.st).2, messageEvals := p.messageEvals + 1 })

/-- The destination `lhs`, with each write counted. -/
def countWrites {σ V : Type} (lhs : Location σ V) : Location (Probe σ) V where
  get := fun p => lhs.get p.st
  set := fun v p => { p with st := lhs.set v p.st, lhsWrites := p.lhsWrites + 1 }

/-- Operation number `i` of a sequence, recording its number in a trace each
time it is evaluated. -/
def traced {σ : Type} (i : Nat) (E : Expr σ Status) : Expr (σ × List Nat) Status := fun p =>
  ((E p.1).1, ((E p.1).2, p.2 ++ [i]))

/-- A body made of the operations `ops`, numbered from `i`, each wrapped in
`RETURN_IF_ERROR`. -/
def wrapAll {σ : Type} : Nat → List (Expr σ Status) → List (Statement (σ × List Nat))
  | _, [] => []
  | i, E :: rest => RETURN_IF_ERROR (traced i E) :: wrapAll (i + 1) rest

/-- The state after the first `k` operations of `ops` have been evaluated one
after the other from `s`, whatever their statuses. -/
def stateAfter {σ : Type} : List (Expr σ Status) → σ → Nat → σ
  | [], s, _ => s
  | _ :: _, s, 0 => s
  | E :: rest, s, k + 1 => stateAfter rest (E s).2 k

/-- The status operation number `k` of `ops` yields when it is evaluated in
the state the operations before it leave behind. -/
def statusAt {σ : Type} : List (Expr σ Status) → σ → Nat → Option Status
  | [], _, _ => none
  | E :: _, s, 0 => some (E s).1
  | E :: rest, s, k + 1 => statusAt rest (E s).2 k

/-- One invocation of `ASSIGN_OR_RETURN_ERROR` with its arguments, the payload
type being part of the data so that invocations of different payload types
share a scope. -/
structure Invocation (σ : Type) where
  V : Type
  site : CallSite
  lhs : Location σ V
  rexpr : Expr σ (StatusOr V)
  message : Expr σ String

/-- The statements an invocation expands to. -/
def Invocation.expand {σ : Type} (inv : Invocation σ) : Statement σ :=
  ASSIGN_OR_RETURN_ERROR inv.site.line inv.lhs inv.rexpr inv.message

/-- Modelled from the spec: the external constructor of a success status
(`absl::OkStatus`). -/
def OkStatus : Status :=
  { code := StatusCode.kOk, message := "" }

/-! ## Example programs

The state of the examples is a counter of the calls made so far. -/

/-- A call that succeeds and is counted. -/
def opSucceeds : Expr Nat Status := fun s => (OkStatus, s + 1)

/-- A call that fails with NOT_FOUND, detail "x missing", and is counted. -/
def opNotFound : Expr Nat Status := fun s =>
  ({ code := StatusCode.kNotFound, message := "x missing" }, s + 1)

/-- A call that fails with INTERNAL, detail "boom", and is counted. -/
def opInternal : Expr Nat Status := fun s =>
  ({ code := StatusCode.kInternal, message := "boom" }, s + 1)

/-- State of the assignment examples: the variable `count` and the number of
calls made so far. -/
structure Vars where
  count : Nat
  calls : Nat
  deriving DecidableEq, Repr

/-- The variable `count` as a destination. -/
def countVar : Location Vars Nat where
  get := fun t => t.count
  set := fun v t => { t with count := v }

/-- A call that yields the payload 42. -/
def compute42 : Expr Vars (StatusOr Nat) := fun t =>
  (StatusOr.value 42, { t with calls := t.calls + 1 })

/-- A call that fails with INTERNAL, detail "boom". -/
def computeBoom : Expr Vars (StatusOr Nat) := fun t =>
  (StatusOr.error { code := StatusCode.kInternal, message := "boom" } rfl,
    { t with calls := t.calls + 1 })

/-- A call that fails with NOT_FOUND, detail "x missing". -/
def computeMissing : Expr Vars (StatusOr Nat) := fun t =>
  (StatusOr.error { code := StatusCode.kNotFound, message := "x missing" } rfl,
    { t with calls := t.calls + 1 })

/-- The message argument "failed to compute count". -/
def failedMessage : Expr Vars String := fun t => ("failed to compute count", t)

/-- The closing `return absl::OkStatus();` of an enclosing operation. -/
def returnOk {σ : Type} : Expr σ Status := fun s => (OkStatus, s)

/-- An invocation on line 10 that assigns 42 to `count`. -/
def assignAtLine10 : Invocation Vars where
  V := Nat
  site := { line := 10, column := 3 }
  lhs := countVar
  rexpr := compute42
  message := failedMessage

/-- An invocation on line 11 whose `rexpr` fails. -/
def assignAtLine11 : Invocation Vars where
  V := Nat
  site := { line := 11, column := 3 }
  lhs := countVar
  rexpr := computeBoom
  message := failedMessage

/-! ## Execution lemmas -/

theorem exec_RETURN_IF_ERROR {σ : Type} (status : Expr σ Status) (s : σ) :
    (RETURN_IF_ERROR status).exec s =
      if (status s).1.ok then Flow.continues (status s).2
      else Flow.returned (status s).1 (status s).2 := by
  unfold RETURN_IF_ERROR
  cases h : (status s).1.ok <;> simp [h]

theorem exec_IMPL_error {σ V : Type} (name : PPToken) (lhs : Location σ V)
    (rexpr : Expr σ (StatusOr V)) (message : Expr σ String) (s : σ)
    (h : (rexpr s).1.ok = false) :
    (WFA_MEASUREMENT_COMMON__ASSIGN_OR_RETURN_IMPL_ name lhs rexpr message).exec s =
      Flow.returned (InvalidArgumentError (message (rexpr s).2).1) (message (rexpr s).2).2 := by
  unfold WFA_MEASUREMENT_COMMON__ASSIGN_OR_RETURN_IMPL_
  simp [ABSL_PREDICT_FALSE, h]

theorem StatusOr.get_eq {V : Type} (r : StatusOr V) (v : V) (h : r = StatusOr.value v)
    (hok : r.ok = true) : r.get hok = v := by
  subst h
  rfl

theorem exec_IMPL_value {σ V : Type} (name : PPToken) (lhs : Location σ V)
    (rexpr : Expr σ (StatusOr V)) (message : Expr σ String) (s : σ) (v : V)
    (h : (rexpr s).1 = StatusOr.value v) :
    (WFA_MEASUREMENT_COMMON__ASSIGN_OR_RETURN_IMPL_ name lhs rexpr message).exec s =
      Flow.continues (lhs.set v (rexpr s).2) := by
  have hok : (rexpr s).1.ok = true := by rw [h]; rfl
  have hcond : ¬ (ABSL_PREDICT_FALSE (!(rexpr s).1.ok) = true) := by
    simp [ABSL_PREDICT_FALSE, hok]
  unfold WFA_MEASUREMENT_COMMON__ASSIGN_OR_RETURN_IMPL_
  simp only []
  rw [dif_neg hcond, StatusOr.get_eq _ v h]

theorem runBlock_append_continues {σ : Type} (pre rest : List (Statement σ)) (s0 s : σ)
    (h : runBlock pre s0 = Flow.continues s) :
    runBlock (pre ++ rest) s0 = runBlock rest s := by
  induction pre generalizing s0 with
  | nil =>
    simp only [runBlock] at h
    cases h
    rfl
  | cons st pre ih =>
    simp only [runBlock, List.cons_append] at h ⊢
    cases hst : st.exec s0 with
    | returned r s1 => simp [hst] at h
    | continues s1 =>
      rw [hst] at h
      simp only at h ⊢
      exact ih s1 h

theorem runBlock_cons_returned {σ : Type} (st : Statement σ) (rest : List (Statement σ))
    (s s1 : σ) (r : Status) (h : st.exec s = Flow.returned r s1) :
    runBlock (st :: rest) s = Flow.returned r s1 := by
  simp [runBlock, h]

theorem runBlock_cons_continues {σ : Type} (st : Statement σ) (rest : List (Statement σ))
    (s s1 : σ) (h : st.exec s = Flow.continues s1) :
    runBlock (st :: rest) s = runBlock rest s1 := by
  simp [runBlock, h]

theorem enclosing_of_returned {σ : Type} (body : List (Statement σ)) (final : Expr σ Status)
    (s s1 : σ) (r : Status) (h : runBlock body s = Flow.returned r s1) :
    enclosing body final s = (r, s1) := by
  simp [enclosing, h]

theorem enclosing_append_continues {σ : Type} (pre rest : List (Statement σ))
    (final : Expr σ Status) (s0 s : σ) (h : runBlock pre s0 = Flow.continues s) :
    enclosing (pre ++ rest) final s0 = enclosing rest final s := by
  simp [enclosing, runBlock_append_continues pre rest s0 s h]

/-! ## RETURN_IF_ERROR -/

/-- C1: failure forwarding of `RETURN_IF_ERROR`.  When the statements before
the construct have run through and the argument evaluates to a failure `f`
(any status that is not OK), the construct returns `f` itself, and so does the
enclosing operation, whatever follows the construct: the returned status is
`f`, with the code of `f` and the message of `f`. -/
theorem C1_RETURN_IF_ERROR_forwards_failure {σ : Type} (status : Expr σ Status) (f : Status)
    (pre rest : List (Statement σ)) (final : Expr σ Status) (s0 s : σ)
    (hf : f.ok = false) (hpre : runBlock pre s0 = Flow.continues s)
    (hE : (status s).1 = f) :
    (RETURN_IF_ERROR status).exec s = Flow.returned f (status s).2 ∧
    enclosing (pre ++ RETURN_IF_ERROR status :: rest) final s0 = (f, (status s).2) ∧
    (enclosing (pre ++ RETURN_IF_ERROR status :: rest) final s0).1.code = f.code ∧
    (enclosing (pre ++ RETURN_IF_ERROR status :: rest) final s0).1.message = f.message := by
  have hexec : (RETURN_IF_ERROR status).exec s = Flow.returned f (status s).2 := by
    rw [exec_RETURN_IF_ERROR, hE, hf]
    simp
  have hrun : enclosing (pre ++ RETURN_IF_ERROR status :: rest) final s0 = (f, (status s).2) := by
    rw [enclosing_append_continues pre _ final s0 s hpre]
    exact enclosing_of_returned _ final s _ f (runBlock_cons_returned _ rest s _ f hexec)
  exact ⟨hexec, hrun, by rw [hrun], by rw [hrun]⟩

/-- Witness of C1: after one successful call, a call failing with NOT_FOUND and
detail "x missing" makes the enclosing operation return that very status; the
call after it is not made. -/
theorem C1_witness :
    enclosing ([RETURN_IF_ERROR opSucceeds] ++ RETURN_IF_ERROR opNotFound ::
        [RETURN_IF_ERROR opInternal]) returnOk 0 =
      ({ code := StatusCode.kNotFound, message := "x missing" }, 2) :=
  (C1_RETURN_IF_ERROR_forwards_failure opNotFound
    { code := StatusCode.kNotFound, message := "x missing" }
    [RETURN_IF_ERROR opSucceeds] [RETURN_IF_ERROR opInternal] returnOk 0 1
    (by decide) (by decide) (by decide)).2.1

/-- C4: success passthrough of `RETURN_IF_ERROR`.  When the argument evaluates
to an OK status the construct does not return: control reaches the following
statement in the state the argument left, and the enclosing operation yields
what the remaining statements and its closing return produce from there. -/
theorem C4_RETURN_IF_ERROR_passes_success {σ : Type} (status : Expr σ Status)
    (pre rest : List (Statement σ)) (final : Expr σ Status) (s0 s : σ)
    (hpre : runBlock pre s0 = Flow.continues s) (hok : (status s).1.ok = true) :
    (RETURN_IF_ERROR status).exec s = Flow.continues (status s).2 ∧
    ((RETURN_IF_ERROR status).exec s).isReturned = false ∧
    runBlock (pre ++ RETURN_IF_ERROR status :: rest) s0 = runBlock rest (status s).2 ∧
    enclosing (pre ++ RETURN_IF_ERROR status :: rest) final s0 =
      enclosing rest final (status s).2 := by
  have hexec : (RETURN_IF_ERROR status).exec s = Flow.continues (status s).2 := by
    rw [exec_RETURN_IF_ERROR, hok]
    simp
  have hrun : runBlock (pre ++ RETURN_IF_ERROR status :: rest) s0 =
      runBlock rest (status s).2 := by
    rw [runBlock_append_continues pre _ s0 s hpre]
    exact runBlock_cons_continues _ rest s _ hexec
  refine ⟨hexec, by rw [hexec]; rfl, hrun, ?_⟩
  simp only [enclosing, hrun]

/-- Witness of C4: a successful call is passed through, and the enclosing
operation returns the failure of the call that follows. -/
theorem C4_witness :
    enclosing ([] ++ RETURN_IF_ERROR opSucceeds :: [RETURN_IF_ERROR opInternal]) returnOk 0 =
      enclosing [RETURN_IF_ERROR opInternal] returnOk 1 :=
  (C4_RETURN_IF_ERROR_passes_success opSucceeds [] [RETURN_IF_ERROR opInternal] returnOk 0 0
    (by decide) (by decide)).2.2.2

/-! ## ASSIGN_OR_RETURN_ERROR -/

theorem exec_ASSIGN_error {σ V : Type} (LINE : Nat) (lhs : Location σ V)
    (rexpr : Expr σ (StatusOr V)) (message : Expr σ String) (s : σ)
    (h : (rexpr s).1.ok = false) :
    (ASSIGN_OR_RETURN_ERROR LINE lhs rexpr message).exec s =
      Flow.returned (InvalidArgumentError (message (rexpr s).2).1) (message (rexpr s).2).2 :=
  exec_IMPL_error _ lhs rexpr message s h

theorem exec_ASSIGN_value {σ V : Type} (LINE : Nat) (lhs : Location σ V)
    (rexpr : Expr σ (StatusOr V)) (message : Expr σ String) (s : σ) (v : V)
    (h : (rexpr s).1 = StatusOr.value v) :
    (ASSIGN_OR_RETURN_ERROR LINE lhs rexpr message).exec s =
      Flow.continues (lhs.set v (rexpr s).2) :=
  exec_IMPL_value _ lhs rexpr message s v h

theorem enclosing_ASSIGN_error {σ V : Type} (LINE : Nat) (lhs : Location σ V)
    (rexpr : Expr σ (StatusOr V)) (message : Expr σ String)
    (pre rest : List (Statement σ)) (final : Expr σ Status) (s0 s : σ)
    (hpre : runBlock pre s0 = Flow.continues s) (h : (rexpr s).1.ok = false) :
    enclosing (pre ++ ASSIGN_OR_RETURN_ERROR LINE lhs rexpr message :: rest) final s0 =
      (InvalidArgumentError (message (rexpr s).2).1, (message (rexpr s).2).2) := by
  rw [enclosing_append_continues pre _ final s0 s hpre]
  exact enclosing_of_returned _ final s _ _
    (runBlock_cons_returned _ rest s _ _ (exec_ASSIGN_error LINE lhs rexpr message s h))

/-- C2: failure replacement of `ASSIGN_OR_RETURN_ERROR`.  When `rexpr` yields a
failure `f` and the message argument evaluates to `m`, the construct makes the
enclosing operation return `InvalidArgumentError m`, whose code is
INVALID_ARGUMENT and whose detail is `m`.  The returned status does not depend
on `f`: any other invocation whose `rexpr` fails with any failure `f2` and
whose message evaluates to the same `m` returns the same status. -/
theorem C2_ASSIGN_OR_RETURN_ERROR_replaces_failure {σ V : Type} (LINE : Nat)
    (lhs : Location σ V) (rexpr : Expr σ (StatusOr V)) (message : Expr σ String)
    (pre rest : List (Statement σ)) (final : Expr σ Status) (s0 s : σ)
    (f : Status) (hf : f.ok = false) (m : String)
    (hpre : runBlock pre s0 = Flow.continues s)
    (hr : (rexpr s).1 = StatusOr.error f hf) (hm : (message (rexpr s).2).1 = m) :
    (ASSIGN_OR_RETURN_ERROR LINE lhs rexpr message).exec s =
      Flow.returned (InvalidArgumentError m) (message (rexpr s).2).2 ∧
    (enclosing (pre ++ ASSIGN_OR_RETURN_ERROR LINE lhs rexpr message :: rest) final s0).1 =
      InvalidArgumentError m ∧
    (InvalidArgumentError m).code = StatusCode.kInvalidArgument ∧
    (InvalidArgumentError m).message = m ∧
    ∀ (V2 : Type) (LINE2 : Nat) (lhs2 : Location σ V2) (rexpr2 : Expr σ (StatusOr V2))
      (message2 : Expr σ String) (pre2 rest2 : List (Statement σ)) (final2 : Expr σ Status)
      (t0 t : σ) (f2 : Status) (hf2 : f2.ok = false),
      runBlock pre2 t0 = Flow.continues t →
      (rexpr2 t).1 = StatusOr.error f2 hf2 →
      (message2 (rexpr2 t).2).1 = m →
      (enclosing (pre2 ++ ASSIGN_OR_RETURN_ERROR LINE2 lhs2 rexpr2 message2 :: rest2)
          final2 t0).1 =
        (enclosing (pre ++ ASSIGN_OR_RETURN_ERROR LINE lhs rexpr message :: rest) final s0).1 := by
  have hfail : (rexpr s).1.ok = false := by rw [hr]; rfl
  have hexec := exec_ASSIGN_error LINE lhs rexpr message s hfail
  have hrun := enclosing_ASSIGN_error LINE lhs rexpr message pre rest final s0 s hpre hfail
  rw [hm] at hexec hrun
  refine ⟨hexec, by rw [hrun], rfl, rfl, ?_⟩
  intro V2 LINE2 lhs2 rexpr2 message2 pre2 rest2 final2 t0 t f2 hf2 hpre2 hr2 hm2
  have hfail2 : (rexpr2 t).1.ok = false := by rw [hr2]; rfl
  rw [enclosing_ASSIGN_error LINE2 lhs2 rexpr2 message2 pre2 rest2 final2 t0 t hpre2 hfail2,
    hrun, hm2]

/-- Witness of C2: `rexpr` fails with INTERNAL and detail "boom", the message is
"failed to compute count"; the enclosing operation returns INVALID_ARGUMENT
with that message, and `count` keeps its value 7. -/
theorem C2_witness :
    enclosing ([] ++ ASSIGN_OR_RETURN_ERROR 10 countVar computeBoom failedMessage :: [])
        returnOk { count := 7, calls := 0 } =
      ({ code := StatusCode.kInvalidArgument, message := "failed to compute count" },
        { count := 7, calls := 1 }) ∧
    (enclosing ([] ++ ASSIGN_OR_RETURN_ERROR 10 countVar computeBoom failedMessage :: [])
        returnOk { count := 7, calls := 0 }).1 =
      InvalidArgumentError "failed to compute count" :=
  ⟨by decide,
    (C2_ASSIGN_OR_RETURN_ERROR_replaces_failure 10 countVar computeBoom failedMessage [] []
      returnOk { count := 7, calls := 0 } { count := 7, calls := 0 }
      { code := StatusCode.kInternal, message := "boom" } rfl "failed to compute count"
      rfl rfl rfl).2.1⟩

/-- C3: success assignment of `ASSIGN_OR_RETURN_ERROR`.  When `rexpr` yields a
success carrying `v`, whatever the message argument is, the construct does not
return, it writes `v` to `lhs` in the state `rexpr` left (so a destination that
reads back what was written holds `v`), and the enclosing operation goes on
with the statements that follow the construct. -/
theorem C3_ASSIGN_OR_RETURN_ERROR_assigns_success {σ V : Type} (LINE : Nat)
    (lhs : Location σ V) (rexpr : Expr σ (StatusOr V)) (message : Expr σ String)
    (pre rest : List (Statement σ)) (final : Expr σ Status) (s0 s : σ) (v : V)
    (hlhs : ∀ (w : V) (t : σ), lhs.get (lhs.set w t) = w)
    (hpre : runBlock pre s0 = Flow.continues s)
    (hr : (rexpr s).1 = StatusOr.value v) :
    (ASSIGN_OR_RETURN_ERROR LINE lhs rexpr message).exec s =
      Flow.continues (lhs.set v (rexpr s).2) ∧
    ((ASSIGN_OR_RETURN_ERROR LINE lhs rexpr message).exec s).isReturned = false ∧
    lhs.get ((ASSIGN_OR_RETURN_ERROR LINE lhs rexpr message).exec s).state = v ∧
    runBlock (pre ++ ASSIGN_OR_RETURN_ERROR LINE lhs rexpr message :: rest) s0 =
      runBlock rest (lhs.set v (rexpr s).2) ∧
    enclosing (pre ++ ASSIGN_OR_RETURN_ERROR LINE lhs rexpr message :: rest) final s0 =
      enclosing rest final (lhs.set v (rexpr s).2) := by
  have hexec := exec_ASSIGN_value LINE lhs rexpr message s v hr
  have hrun : runBlock (pre ++ ASSIGN_OR_RETURN_ERROR LINE lhs rexpr message :: rest) s0 =
      runBlock rest (lhs.set v (rexpr s).2) := by
    rw [runBlock_append_continues pre _ s0 s hpre]
    exact runBlock_cons_continues _ rest s _ hexec
  refine ⟨hexec, by rw [hexec]; rfl, ?_, hrun, ?_⟩
  · rw [hexec]
    exact hlhs v _
  · simp only [enclosing, hrun]

/-- Witness of C3: `rexpr` yields 42 and `lhs` is `count`; afterwards `count` is
42 and the enclosing operation runs to its closing return. -/
theorem C3_witness :
    (ASSIGN_OR_RETURN_ERROR 10 countVar compute42 failedMessage).exec
        { count := 7, calls := 0 } = Flow.continues { count := 42, calls := 1 } ∧
    enclosing ([] ++ ASSIGN_OR_RETURN_ERROR 10 countVar compute42 failedMessage :: [])
        returnOk { count := 7, calls := 0 } = (OkStatus, { count := 42, calls := 1 }) :=
  ⟨(C3_ASSIGN_OR_RETURN_ERROR_assigns_success 10 countVar compute42 failedMessage [] []
      returnOk { count := 7, calls := 0 } { count := 7, calls := 0 } 42
      (fun _ _ => rfl) rfl rfl).1,
    by decide⟩

/-! ## Evaluation counts -/

theorem exec_ASSIGN_probe {σ V : Type} (LINE : Nat) (lhs : Location σ V)
    (rexpr : Expr σ (StatusOr V)) (message : Expr σ String) (p : Probe σ) :
    ((rexpr p.st).1.ok = false ∧
      (ASSIGN_OR_RETURN_ERROR LINE (countWrites lhs) (countArg rexpr)
          (countMessage message)).exec p =
        Flow.returned (InvalidArgumentError (message (rexpr p.st).2).1)
          { st := (message (rexpr p.st).2).2, argEvals := p.argEvals + 1,
            messageEvals := p.messageEvals + 1, lhsWrites := p.lhsWrites }) ∨
    (∃ v, (rexpr p.st).1 = StatusOr.value v ∧
      (ASSIGN_OR_RETURN_ERROR LINE (countWrites lhs) (countArg rexpr)
          (countMessage message)).exec p =
        Flow.continues
          { st := lhs.set v (rexpr p.st).2, argEvals := p.argEvals + 1,
            messageEvals := p.messageEvals, lhsWrites := p.lhsWrites + 1 }) := by
  cases hr : (rexpr p.st).1 with
  | value v =>
    right
    refine ⟨v, rfl, ?_⟩
    rw [exec_ASSIGN_value LINE _ _ _ p v (by simpa [countArg] using hr)]
    rfl
  | error f hf =>
    left
    refine ⟨rfl, ?_⟩
    rw [exec_ASSIGN_error LINE _ _ _ p (by simp [countArg, hr, StatusOr.ok])]
    rfl

/-- C5: single evaluation.  With every evaluation of the argument `E` counted,
one execution of `RETURN_IF_ERROR(E)` raises the count by exactly one and ends
in the state one evaluation of `E` leaves, and one execution of
`ASSIGN_OR_RETURN_ERROR(lhs, E, m)` raises the count by exactly one, whatever
`E` yields: on the path where `E` succeeds and on the path where it fails. -/
theorem C5_argument_evaluated_once {σ V : Type} (E : Expr σ Status)
    (R : Expr σ (StatusOr V)) (LINE : Nat) (lhs : Location σ V) (message : Expr σ String)
    (p : Probe σ) :
    ((RETURN_IF_ERROR (countArg E)).exec p).state.argEvals = p.argEvals + 1 ∧
    ((RETURN_IF_ERROR (countArg E)).exec p).state.st = (E p.st).2 ∧
    ((RETURN_IF_ERROR (countArg E)).exec p).isReturned = !(E p.st).1.ok ∧
    ((ASSIGN_OR_RETURN_ERROR LINE (countWrites lhs) (countArg R)
        (countMessage message)).exec p).state.argEvals = p.argEvals + 1 ∧
    ((ASSIGN_OR_RETURN_ERROR LINE (countWrites lhs) (countArg R)
        (countMessage message)).exec p).isReturned = !(R p.st).1.ok := by
  refine ⟨?_, ?_, ?_, ?_, ?_⟩
  · rw [exec_RETURN_IF_ERROR]
    cases h : ((countArg E) p).1.ok <;> simp [Flow.state, countArg]
  · rw [exec_RETURN_IF_ERROR]
    cases h : ((countArg E) p).1.ok <;> simp [Flow.state, countArg]
  · rw [exec_RETURN_IF_ERROR]
    cases h : (E p.st).1.ok <;> simp [Flow.isReturned, countArg, h]
  · rcases exec_ASSIGN_probe LINE lhs R message p with ⟨_, h⟩ | ⟨v, _, h⟩ <;> rw [h] <;> rfl
  · rcases exec_ASSIGN_probe LINE lhs R message p with ⟨hr, h⟩ | ⟨v, hr, h⟩
    · rw [h, hr]
      rfl
    · rw [h, hr]
      rfl

/-- C8: lazy message.  With every evaluation of the message argument counted,
one execution of `ASSIGN_OR_RETURN_ERROR` leaves the count unchanged when
`rexpr` yields a success and raises it by exactly one when `rexpr` yields a
failure. -/
theorem C8_message_evaluated_on_failure_only {σ V : Type} (LINE : Nat) (lhs : Location σ V)
    (rexpr : Expr σ (StatusOr V)) (message : Expr σ String) (p : Probe σ) :
    ((ASSIGN_OR_RETURN_ERROR LINE (countWrites lhs) (countArg rexpr)
        (countMessage message)).exec p).state.messageEvals =
      p.messageEvals + (if (rexpr p.st).1.ok then 0 else 1) := by
  rcases exec_ASSIGN_probe LINE lhs rexpr message p with ⟨hr, h⟩ | ⟨v, hr, h⟩
  · rw [h, hr]
    rfl
  · rw [h, hr]
    rfl

/-- C10: no assignment on failure.  When `rexpr` yields a failure, whatever the
message and whatever `lhs` held, the construct returns without writing to
`lhs`: the number of writes to `lhs` is unchanged, the state at the return is
the one left by evaluating `rexpr` and then the message, and every observation
of the state that these two evaluations preserve (the value of `lhs` or of any
other variable) is at the return what it was before the construct ran. -/
theorem C10_no_assignment_on_failure {σ V : Type} (LINE : Nat) (lhs : Location σ V)
    (rexpr : Expr σ (StatusOr V)) (message : Expr σ String) (p : Probe σ)
    (hfail : (rexpr p.st).1.ok = false) :
    ((ASSIGN_OR_RETURN_ERROR LINE (countWrites lhs) (countArg rexpr)
        (countMessage message)).exec p).isReturned = true ∧
    ((ASSIGN_OR_RETURN_ERROR LINE (countWrites lhs) (countArg rexpr)
        (countMessage message)).exec p).state.lhsWrites = p.lhsWrites ∧
    ((ASSIGN_OR_RETURN_ERROR LINE (countWrites lhs) (countArg rexpr)
        (countMessage message)).exec p).state.st = (message (rexpr p.st).2).2 ∧
    ∀ (α : Type) (obs : σ → α),
      (∀ t, obs (rexpr t).2 = obs t) → (∀ t, obs (message t).2 = obs t) →
      obs ((ASSIGN_OR_RETURN_ERROR LINE (countWrites lhs) (countArg rexpr)
        (countMessage message)).exec p).state.st = obs p.st := by
  rcases exec_ASSIGN_probe LINE lhs rexpr message p with ⟨_, h⟩ | ⟨v, hr, _⟩
  · rw [h]
    refine ⟨rfl, rfl, rfl, ?_⟩
    intro α obs hR hM
    show obs (message (rexpr p.st).2).2 = obs p.st
    rw [hM, hR]
  · rw [hr] at hfail
    cases hfail

/-- Witness of C10: `count` holds 7, `rexpr` fails; at the return `count` still
holds 7 and no write to it was made. -/
theorem C10_witness :
    ((ASSIGN_OR_RETURN_ERROR 10 (countWrites countVar) (countArg computeBoom)
        (countMessage failedMessage)).exec
      { st := { count := 7, calls := 0 }, argEvals := 0, messageEvals := 0,
        lhsWrites := 0 }).state.lhsWrites = 0 ∧
    countVar.get ((ASSIGN_OR_RETURN_ERROR 10 (countWrites countVar) (countArg computeBoom)
        (countMessage failedMessage)).exec
      { st := { count := 7, calls := 0 }, argEvals := 0, messageEvals := 0,
        lhsWrites := 0 }).state.st = 7 :=
  ⟨(C10_no_assignment_on_failure 10 countVar computeBoom failedMessage
      { st := { count := 7, calls := 0 }, argEvals := 0, messageEvals := 0, lhsWrites := 0 }
      rfl).2.1,
    (C10_no_assignment_on_failure 10 countVar computeBoom failedMessage
      { st := { count := 7, calls := 0 }, argEvals := 0, messageEvals := 0, lhsWrites := 0 }
      rfl).2.2.2 Nat countVar.get (fun _ => rfl) (fun _ => rfl)⟩

/-! ## The name of the hidden temporary -/

theorem digitChar_value (d : Nat) (h : d < 10) : (Nat.digitChar d).toNat - 48 = d := by
  interval_cases d <;> rfl

theorem decimalCore_value (fuel n : Nat) (ds : List Char) (h : n < fuel) :
    List.foldl (fun a c => 10 * a + (c.toNat - 48)) 0 (decimalCore fuel n ds) =
      List.foldl (fun a c => 10 * a + (c.toNat - 48)) n ds := by
  induction fuel generalizing n ds with
  | zero => omega
  | succ fuel ih =>
    unfold decimalCore
    split
    · have hn : n % 10 = n := by omega
      rw [List.foldl_cons, digitChar_value _ (Nat.mod_lt _ (by norm_num)), hn]
      simp
    · rw [ih (n / 10) _ (by omega), List.foldl_cons,
        digitChar_value _ (Nat.mod_lt _ (by norm_num))]
      congr 1
      omega

theorem decimal_injective (a b : Nat) (h : decimal a = decimal b) : a = b := by
  have hd : decimalCore (a + 1) a [] = decimalCore (b + 1) b [] :=
    congrArg String.data h
  have ha := decimalCore_value (a + 1) a [] (by omega)
  have hb := decimalCore_value (b + 1) b [] (by omega)
  rw [hd, hb] at ha
  simpa using ha.symm

theorem append_left_cancel (x a b : String) (h : x ++ a = x ++ b) : a = b := by
  have hd : (x ++ a).data = (x ++ b).data := by rw [h]
  rw [String.data_append, String.data_append] at hd
  exact String.ext (List.append_cancel_left hd)

theorem hiddenTemporary_eq (c : CallSite) :
    hiddenTemporary c = PPToken.identifier ("status_or_value" ++ decimal c.line) := by
  simp [hiddenTemporary, WFA_MEASUREMENT_COMMON_MACROS_IMPL_CONCAT_,
    WFA_MEASUREMENT_COMMON_MACROS_IMPL_CONCAT_INNER_, expandArg, paste, PPToken.spelling]

theorem hiddenTemporary_eq_iff (a b : CallSite) :
    hiddenTemporary a = hiddenTemporary b ↔ a.line = b.line := by
  constructor
  · intro h
    rw [hiddenTemporary_eq, hiddenTemporary_eq] at h
    exact decimal_injective _ _ (append_left_cancel _ _ _ (PPToken.identifier.inj h))
  · intro h
    simp [hiddenTemporary, h]

theorem declares_ASSIGN {σ V : Type} (c : CallSite) (lhs : Location σ V)
    (rexpr : Expr σ (StatusOr V)) (message : Expr σ String) :
    (ASSIGN_OR_RETURN_ERROR c.line lhs rexpr message).declares = [hiddenTemporary c] := rfl

theorem declaredNames_expand {σ : Type} (invs : List (Invocation σ)) :
    declaredNames (invs.map Invocation.expand) =
      (invs.map (fun i => i.site.line)).map (fun l => hiddenTemporary ⟨l, 0⟩) := by
  induction invs with
  | nil => rfl
  | cons inv invs ih =>
    simp only [declaredNames, List.map_cons, List.flatMap_cons] at ih ⊢
    rw [ih]
    rfl

theorem wellFormedScope_expand {σ : Type} (invs : List (Invocation σ))
    (h : (invs.map (fun i => i.site.line)).Nodup) :
    wellFormedScope (invs.map Invocation.expand) = true := by
  unfold wellFormedScope
  rw [declaredNames_expand, decide_eq_true_eq]
  refine List.Nodup.map ?_ h
  intro a b hab
  exact (hiddenTemporary_eq_iff ⟨a, 0⟩ ⟨b, 0⟩).1 hab

/-- Counterexample to C6: the call sites at columns 3 and 40 of line 42 are two
distinct invocations on one line, both expansions declare the name
`status_or_value42`, and a scope holding both declares that name twice. -/
theorem C6_same_line_collision :
    (CallSite.mk 42 3 ≠ CallSite.mk 42 40) ∧
    hiddenTemporary (CallSite.mk 42 3) = PPToken.identifier "status_or_value42" ∧
    hiddenTemporary (CallSite.mk 42 40) = PPToken.identifier "status_or_value42" ∧
    declaredNames
        [ASSIGN_OR_RETURN_ERROR (CallSite.mk 42 3).line countVar compute42 failedMessage,
          ASSIGN_OR_RETURN_ERROR (CallSite.mk 42 40).line countVar computeMissing
            failedMessage] =
      [PPToken.identifier "status_or_value42", PPToken.identifier "status_or_value42"] ∧
    wellFormedScope
        [ASSIGN_OR_RETURN_ERROR (CallSite.mk 42 3).line countVar compute42 failedMessage,
          ASSIGN_OR_RETURN_ERROR (CallSite.mk 42 40).line countVar computeMissing
            failedMessage] = false := by
  decide

/-- C6, amended: the name of the hidden temporary depends on the line of the
invocation only.  Two invocations of `ASSIGN_OR_RETURN_ERROR` declare the same
name exactly when they are on the same line, and a scope holding the two is
free of a redeclaration exactly when their lines differ. -/
theorem C6_names_collide_exactly_on_same_line {σ V W : Type} (a b : CallSite)
    (lhsA : Location σ V) (rexprA : Expr σ (StatusOr V)) (messageA : Expr σ String)
    (lhsB : Location σ W) (rexprB : Expr σ (StatusOr W)) (messageB : Expr σ String) :
    (hiddenTemporary a = hiddenTemporary b ↔ a.line = b.line) ∧
    (wellFormedScope
        [ASSIGN_OR_RETURN_ERROR a.line lhsA rexprA messageA,
          ASSIGN_OR_RETURN_ERROR b.line lhsB rexprB messageB] = true ↔ a.line ≠ b.line) := by
  refine ⟨hiddenTemporary_eq_iff a b, ?_⟩
  have hnames : declaredNames
      [ASSIGN_OR_RETURN_ERROR a.line lhsA rexprA messageA,
        ASSIGN_OR_RETURN_ERROR b.line lhsB rexprB messageB] =
      [hiddenTemporary a, hiddenTemporary b] := rfl
  unfold wellFormedScope
  rw [hnames, decide_eq_true_eq]
  simp [hiddenTemporary_eq_iff]

/-- C7: the hidden temporary of an invocation is named `status_or_value`
followed by the decimal line number: the two-level concatenation expands
`__LINE__` before pasting, where the inner level alone would paste the
unexpanded name.  Invocations on different lines declare different names, so a
scope whose invocations are on pairwise different lines is free of a
redeclaration, and each invocation in it behaves on its own: when its `rexpr`
fails the enclosing operation returns `InvalidArgumentError` of its message,
when its `rexpr` yields `v` its `lhs` receives `v` and the invocations after it
run next. -/
theorem C7_names_distinct_across_lines {σ : Type} (invs : List (Invocation σ))
    (hlines : (invs.map (fun i => i.site.line)).Nodup) :
    (∀ c : CallSite,
      hiddenTemporary c = PPToken.identifier ("status_or_value" ++ decimal c.line)) ∧
    WFA_MEASUREMENT_COMMON_MACROS_IMPL_CONCAT_INNER_ (PPToken.identifier "status_or_value")
        (PPToken.identifier "__LINE__") = PPToken.identifier "status_or_value__LINE__" ∧
    (∀ a b : CallSite, a.line ≠ b.line → hiddenTemporary a ≠ hiddenTemporary b) ∧
    (∀ m n : Nat, decimal m = decimal n → m = n) ∧
    wellFormedScope (invs.map Invocation.expand) = true ∧
    ∀ (pre : List (Invocation σ)) (inv : Invocation σ) (post : List (Invocation σ)),
      invs = pre ++ inv :: post →
      inv.expand.declares = [hiddenTemporary inv.site] ∧
      ∀ (final : Expr σ Status) (s0 s : σ),
        runBlock (pre.map Invocation.expand) s0 = Flow.continues s →
        ((inv.rexpr s).1.ok = false →
          enclosing (invs.map Invocation.expand) final s0 =
            (InvalidArgumentError (inv.message (inv.rexpr s).2).1,
              (inv.message (inv.rexpr s).2).2)) ∧
        (∀ v : inv.V, (inv.rexpr s).1 = StatusOr.value v →
          runBlock (invs.map Invocation.expand) s0 =
            runBlock (post.map Invocation.expand) (inv.lhs.set v (inv.rexpr s).2)) := by
  refine ⟨hiddenTemporary_eq, by decide, ?_, decimal_injective, wellFormedScope_expand invs hlines,
    ?_⟩
  · intro a b hab h
    exact hab ((hiddenTemporary_eq_iff a b).1 h)
  · intro pre inv post hsplit
    refine ⟨rfl, ?_⟩
    intro final s0 s hpre
    subst hsplit
    rw [List.map_append, List.map_cons]
    constructor
    · intro hfail
      exact enclosing_ASSIGN_error inv.site.line inv.lhs inv.rexpr inv.message _ _ final s0 s
        hpre hfail
    · intro v hv
      rw [runBlock_append_continues _ _ s0 s hpre]
      exact runBlock_cons_continues _ _ s _
        (exec_ASSIGN_value inv.site.line inv.lhs inv.rexpr inv.message s v hv)

/-- Witness of C7: invocations on lines 10 and 11 share a scope without a
redeclaration; the first assigns 42 to `count`, the second fails and the
enclosing operation returns INVALID_ARGUMENT with the message of the second. -/
theorem C7_witness :
    (List.map (fun i => i.site.line) [assignAtLine10, assignAtLine11]).Nodup ∧
    wellFormedScope (List.map Invocation.expand [assignAtLine10, assignAtLine11]) = true ∧
    enclosing (List.map Invocation.expand [assignAtLine10, assignAtLine11]) returnOk
        { count := 7, calls := 0 } =
      (InvalidArgumentError "failed to compute count", { count := 42, calls := 2 }) :=
  ⟨by decide,
    (C7_names_distinct_across_lines [assignAtLine10, assignAtLine11] (by decide)).2.2.2.2.1,
    ((((C7_names_distinct_across_lines [assignAtLine10, assignAtLine11]
      (by decide)).2.2.2.2.2 [assignAtLine10] assignAtLine11 [] rfl).2 returnOk
      { count := 7, calls := 0 } { count := 42, calls := 1 } (by decide)).1 rfl)⟩

/-! ## Sequences of RETURN_IF_ERROR -/

theorem stateAfter_zero {σ : Type} (ops : List (Expr σ Status)) (s : σ) :
    stateAfter ops s 0 = s := by
  cases ops <;> rfl

theorem exec_traced {σ : Type} (i : Nat) (E : Expr σ Status) (s : σ) (tr : List Nat) :
    (RETURN_IF_ERROR (traced i E)).exec (s, tr) =
      if (E s).1.ok then Flow.continues ((E s).2, tr ++ [i])
      else Flow.returned (E s).1 ((E s).2, tr ++ [i]) := by
  rw [exec_RETURN_IF_ERROR]
  rfl

theorem runBlock_first_failure {σ : Type} (ops : List (Expr σ Status)) (i : Nat) (s : σ)
    (tr : List Nat) (k : Nat) (f : Status) (hk : statusAt ops s k = some f)
    (hf : f.ok = false)
    (hbefore : ∀ j, j < k → ∀ g, statusAt ops s j = some g → g.ok = true) :
    runBlock (wrapAll i ops) (s, tr) =
      Flow.returned f (stateAfter ops s (k + 1), tr ++ List.range' i (k + 1)) := by
  induction ops generalizing i s tr k with
  | nil => simp [statusAt] at hk
  | cons E rest ih =>
    cases k with
    | zero =>
      simp only [statusAt, Option.some.injEq] at hk
      have hexec : (RETURN_IF_ERROR (traced i E)).exec (s, tr) =
          Flow.returned f ((E s).2, tr ++ [i]) := by
        rw [exec_traced, hk, hf]
        simp
      simp only [wrapAll]
      rw [runBlock_cons_returned _ _ _ _ _ hexec]
      simp [stateAfter, stateAfter_zero, List.range']
    | succ k =>
      have h0 : (E s).1.ok = true := hbefore 0 (Nat.succ_pos k) _ rfl
      have hexec : (RETURN_IF_ERROR (traced i E)).exec (s, tr) =
          Flow.continues ((E s).2, tr ++ [i]) := by
        rw [exec_traced, h0]
        simp
      simp only [wrapAll]
      rw [runBlock_cons_continues _ _ _ _ hexec,
        ih (i + 1) (E s).2 (tr ++ [i]) k hk
          (fun j hj g hg => hbefore (j + 1) (Nat.succ_lt_succ hj) g hg)]
      simp [stateAfter, List.range']

theorem runBlock_no_failure {σ : Type} (ops : List (Expr σ Status)) (i : Nat) (s : σ)
    (tr : List Nat) (hall : ∀ j g, statusAt ops s j = some g → g.ok = true) :
    runBlock (wrapAll i ops) (s, tr) =
      Flow.continues (stateAfter ops s ops.length, tr ++ List.range' i ops.length) := by
  induction ops generalizing i s tr with
  | nil => simp [wrapAll, runBlock, stateAfter]
  | cons E rest ih =>
    have h0 : (E s).1.ok = true := hall 0 _ rfl
    have hexec : (RETURN_IF_ERROR (traced i E)).exec (s, tr) =
        Flow.continues ((E s).2, tr ++ [i]) := by
      rw [exec_traced, h0]
      simp
    simp only [wrapAll]
    rw [runBlock_cons_continues _ _ _ _ hexec,
      ih (i + 1) (E s).2 (tr ++ [i]) (fun j g hg => hall (j + 1) g hg)]
    simp [stateAfter, List.range']

theorem runBlock_returned_iff {σ : Type} (ops : List (Expr σ Status)) (i : Nat) (s : σ)
    (tr : List Nat) :
    (runBlock (wrapAll i ops) (s, tr)).isReturned = true ↔
      ∃ k f, statusAt ops s k = some f ∧ f.ok = false := by
  induction ops generalizing i s tr with
  | nil => simp [wrapAll, runBlock, Flow.isReturned, statusAt]
  | cons E rest ih =>
    simp only [wrapAll]
    cases h0 : (E s).1.ok with
    | false =>
      have hexec : (RETURN_IF_ERROR (traced i E)).exec (s, tr) =
          Flow.returned (E s).1 ((E s).2, tr ++ [i]) := by
        rw [exec_traced, h0]
        simp
      rw [runBlock_cons_returned _ _ _ _ _ hexec]
      simp only [Flow.isReturned, true_iff]
      exact ⟨0, (E s).1, rfl, h0⟩
    | true =>
      have hexec : (RETURN_IF_ERROR (traced i E)).exec (s, tr) =
          Flow.continues ((E s).2, tr ++ [i]) := by
        rw [exec_traced, h0]
        simp
      rw [runBlock_cons_continues _ _ _ _ hexec, ih]
      constructor
      · rintro ⟨k, f, hk, hf⟩
        exact ⟨k + 1, f, hk, hf⟩
      · rintro ⟨k, f, hk, hf⟩
        cases k with
        | zero =>
          simp only [statusAt, Option.some.injEq] at hk
          rw [hk, hf] at h0
          cases h0
        | succ k => exact ⟨k, f, hk, hf⟩

/-- C9: short-circuit in sequence.  The operations `ops` are each wrapped in
`RETURN_IF_ERROR` inside one enclosing operation, and every evaluation records
the number of its operation in a trace.  If operation `k` fails with `f` and
every operation before it succeeds, the enclosing operation returns `f`, the
trace is `0, 1, ..., k` (each operation up to the failing one evaluated once,
in order, none after it) and the state is the one these evaluations leave.  If
no operation fails, the trace is the whole sequence in order and control
reaches the end of the body.  The body returns early exactly when some
operation fails. -/
theorem C9_short_circuit_in_sequence {σ : Type} (ops : List (Expr σ Status))
    (final : Expr (σ × List Nat) Status) (s : σ) :
    (∀ (k : Nat) (f : Status), statusAt ops s k = some f → f.ok = false →
      (∀ j, j < k → ∀ g, statusAt ops s j = some g → g.ok = true) →
      enclosing (wrapAll 0 ops) final (s, []) =
        (f, (stateAfter ops s (k + 1), List.range (k + 1)))) ∧
    ((∀ j g, statusAt ops s j = some g → g.ok = true) →
      runBlock (wrapAll 0 ops) (s, []) =
        Flow.continues (stateAfter ops s ops.length, List.range ops.length)) ∧
    ((runBlock (wrapAll 0 ops) (s, [])).isReturned = true ↔
      ∃ k f, statusAt ops s k = some f ∧ f.ok = false) := by
  refine ⟨?_, ?_, runBlock_returned_iff ops 0 s []⟩
  · intro k f hk hf hbefore
    refine enclosing_of_returned _ final _ _ f ?_
    rw [runBlock_first_failure ops 0 s [] k f hk hf hbefore, List.range_eq_range']
    simp
  · intro hall
    rw [runBlock_no_failure ops 0 s [] hall, List.range_eq_range']
    simp

/-- Witness of C9: of three calls the second fails with NOT_FOUND; the
enclosing operation returns that failure, calls 0 and 1 were made once each and
call 2 was not made. -/
theorem C9_witness :
    enclosing (wrapAll 0 [opSucceeds, opNotFound, opInternal]) returnOk (0, []) =
      ({ code := StatusCode.kNotFound, message := "x missing" }, (2, [0, 1])) :=
  (C9_short_circuit_in_sequence [opSucceeds, opNotFound, opInternal] returnOk 0).1 1
    { code := StatusCode.kNotFound, message := "x missing" } rfl rfl
    (fun j hj g hg => by
      have hj0 : j = 0 := by omega
      subst hj0
      cases hg
      rfl)

end WfaMacros
